import Mathlib

/-!
Verification of the FileBase file-handle abstraction
(`include/bcc/Support/FileBase.h`, namespace `bcc`).

The repository ships only the class declaration; the inline members
(`reopen`, `hasError`, `getError`, `getErrorMessage`, `getName`) are
embedded from the source, while the out-of-line members (`open`, `close`,
`lock`, `unlock`, `createMap`, the destructor) are modelled from the
specification, as noted on each definition.
-/

namespace bcc

/-- ErrorState taxonomy from the spec (section 3 / section 7): the sticky
last-error classification carried by `mError`. -/
inductive ErrorState where
  | Success
  | OpenFailed
  | LockFailed
  | IntegrityMismatch
  | MapFailed
  | IOFailed
  deriving DecidableEq, Repr

/-- LockModeEnum from the source header (lines 48-57). -/
inductive LockModeEnum where
  | kReadLock
  | kWriteLock
  deriving DecidableEq, Repr

/-- Default configuration to the lock(), from the source header (lines 60-63):
kDefaultMaxRetryLock = 4. -/
def kDefaultMaxRetryLock : Nat := 4

/-- Default configuration to the lock(), from the source header (lines 60-63):
kDefaultRetryLockInterval = 200000 microseconds. -/
def kDefaultRetryLockInterval : Nat := 200000

/-- Identity of an open OS descriptor: which path and which open flags it was
obtained from.  Used to state the handle invariant ("descriptor refers to a
descriptor opened from name with openFlags"). -/
structure FdInfo where
  openedName : String
  openedFlags : Nat
  deriving DecidableEq, Repr

/-- State of a `bcc::FileBase` handle, with the source field names:
`mName` (path), `mOpenFlags` (second argument of POSIX open), `mFD`
(descriptor, `none` when invalid), `mError` (sticky last error),
`mShouldUnlock` (true when this handle holds an advisory lock to release). -/
structure FileBase where
  mName : String
  mOpenFlags : Nat
  mFD : Option FdInfo
  mError : ErrorState
  mShouldUnlock : Bool
  deriving DecidableEq, Repr

/-- POSIX access-mode check on the stored open flags: the low two bits of the
flag word are O_ACCMODE; value 0 is O_RDONLY, so the handle was opened
read-only exactly when `flags % 4 == 0`. -/
def readOnlyOpened (flags : Nat) : Bool :=
  flags % 4 == 0

/-- Modelled from the spec: the private `FileBase::open` (declared at header
line 82, body not in the repository).  Opens `mName` with `mOpenFlags` via
POSIX open; `osOK` stands for the OS outcome.  On success the descriptor is
valid and refers to `mName`/`mOpenFlags`; on failure the descriptor is left
invalid and `mError` is set to OpenFailed (spec section 4.1). -/
def FileBase.openFile (osOK : Bool) (h : FileBase) : FileBase × Bool :=
  if osOK then
    ({ h with mFD := some ⟨h.mName, h.mOpenFlags⟩, mError := ErrorState.Success }, true)
  else
    ({ h with mFD := none, mError := ErrorState.OpenFailed }, false)

/-- Modelled from the spec: `FileBase::close` (declared at header line 147,
body not in the repository).  Releases the descriptor; idempotent, a no-op on
an already-invalid descriptor, records no error, and does not release an
outstanding lock (spec section 4.1, "Operation: close"). -/
def FileBase.close (h : FileBase) : FileBase :=
  { h with mFD := none }

/-- Embedded from the source (header lines 89-95): `FileBase::reopen` is
inline and is exactly `close(); return open();`.  The behaviour of the called
`open` is the spec-modelled `openFile`. -/
def FileBase.reopen (osOK : Bool) (h : FileBase) : FileBase × Bool :=
  FileBase.openFile osOK (FileBase.close h)

/-- Modelled from the spec: one pass of the nonblocking retry loop inside
`FileBase::lock` (declared at header lines 116-118, body not in the
repository).  `fdValid` is whether the descriptor is valid (the OS grants no
lock on an invalid descriptor), `env i` is whether the OS would grant the
lock at attempt number `idx + i`, and the fuel is the number of attempts
still allowed.  Returns whether an attempt succeeded and how many attempts
were made; the loop stops at the first success. -/
def lockTry (fdValid : Bool) (env : Nat → Bool) : Nat → Nat → Bool × Nat
  | _, 0 => (false, 0)
  | idx, fuel + 1 =>
    if fdValid && env idx then
      (true, 1)
    else
      ((lockTry fdValid env (idx + 1) fuel).1, (lockTry fdValid env (idx + 1) fuel).2 + 1)

/-- Modelled from the spec: `FileBase::lock` (header lines 110-118, body not
in the repository).  In the nonblocking case each attempt returns
immediately; after a would-block failure the loop sleeps `pRetryInterval`
microseconds and retries, for at most `pMaxRetry + 1` total attempts.  If all
attempts fail, `mError` is set to LockFailed and `mShouldUnlock` stays as it
was; on success `mShouldUnlock` is set to true.  In the blocking case the
call blocks on the OS primitive once (`env 0` stands for its outcome).
Returns the new state, the success flag, the number of acquisition attempts
made, and the total microseconds slept between attempts. -/
def FileBase.lock (h : FileBase) (pMode : LockModeEnum) (pNonblocking : Bool)
    (pMaxRetry : Nat) (pRetryInterval : Nat) (env : Nat → Bool) :
    FileBase × Bool × Nat × Nat :=
  if pNonblocking then
    let r := lockTry h.mFD.isSome env 0 (pMaxRetry + 1)
    if r.1 then
      ({ h with mShouldUnlock := true, mError := ErrorState.Success },
       true, r.2, (r.2 - 1) * pRetryInterval)
    else
      ({ h with mError := ErrorState.LockFailed }, false, r.2, (r.2 - 1) * pRetryInterval)
  else
    if h.mFD.isSome && env 0 then
      ({ h with mShouldUnlock := true, mError := ErrorState.Success }, true, 1, 0)
    else
      ({ h with mError := ErrorState.LockFailed }, false, 1, 0)

/-- Convenience wrapper carrying the default arguments of `lock` from the
source header (lines 116-118): `pNonblocking = true`,
`pMaxRetry = kDefaultMaxRetryLock`,
`pRetryInterval = kDefaultRetryLockInterval`. -/
def FileBase.lockDefault (h : FileBase) (pMode : LockModeEnum) (env : Nat → Bool) :
    FileBase × Bool × Nat × Nat :=
  FileBase.lock h pMode true kDefaultMaxRetryLock kDefaultRetryLockInterval env

/-- Modelled from the spec: `FileBase::unlock` (header line 120, body not in
the repository).  Releases the lock if held; idempotent and a no-op when no
lock is held; best-effort, never failing the process: when the underlying
release call errors (`osOK = false`) the failure is only recorded in
`mError` for diagnostics (spec section 4.2, "Operation: unlock"). -/
def FileBase.unlock (osOK : Bool) (h : FileBase) : FileBase :=
  if h.mShouldUnlock then
    if osOK then
      { h with mShouldUnlock := false }
    else
      { h with mShouldUnlock := false, mError := ErrorState.LockFailed }
  else
    h

/-- Modelled from the spec: the state effect of `FileBase::seek` (header line
130, body not in the repository).  `osResult` stands for the syscall outcome:
the new absolute offset on success, `none` on failure, in which case IOFailed
is recorded (spec section 4.1, "Operation: seek/tell"). -/
def FileBase.seek (osResult : Option Int) (h : FileBase) : FileBase × Option Int :=
  match osResult with
  | some off => ({ h with mError := ErrorState.Success }, some off)
  | none => ({ h with mError := ErrorState.IOFailed }, none)

/-- MappedView produced by `createMap` (source `android::FileMap`): an
independently owned mapping of `[offset, offset + length)`, read-only or
read-write. -/
structure FileMap where
  offset : Int
  length : Nat
  readOnly : Bool
  deriving DecidableEq, Repr

/-- Modelled from the spec: `FileBase::createMap` (header lines 122-126, body
not in the repository).  Produces a MappedView per `pIsReadOnly`, consistent
with how the descriptor was opened: a writable map on a read-only-opened
handle fails with MapFailed, never silently degrading to read-only.  Fails
with a `none` result and `mError = MapFailed` on an invalid descriptor, an
invalid range (negative offset or zero length), or an OS mapping failure
(`osOK = false`); it has no side effect on the file (spec section 4.4). -/
def FileBase.createMap (h : FileBase) (pOffset : Int) (pLength : Nat)
    (pIsReadOnly : Bool) (osOK : Bool) : FileBase × Option FileMap :=
  if h.mFD.isSome && (pIsReadOnly || !readOnlyOpened h.mOpenFlags)
      && decide (0 ≤ pOffset) && decide (0 < pLength) && osOK then
    ({ h with mError := ErrorState.Success }, some ⟨pOffset, pLength, pIsReadOnly⟩)
  else
    ({ h with mError := ErrorState.MapFailed }, none)

/-- Embedded from the source (header lines 133-134): `hasError` is inline and
returns whether `mError.value()` differs from success. -/
def FileBase.hasError (h : FileBase) : Bool :=
  h.mError != ErrorState.Success

/-- Embedded from the source (header lines 136-137): `getError` is inline and
returns the stored `mError` unchanged. -/
def FileBase.getError (h : FileBase) : ErrorState :=
  h.mError

/-- Human-readable message of an error classification, standing for
`llvm::error_code::message()`: computed from the error value on demand, not
stored in the handle. -/
def ErrorState.message : ErrorState → String
  | ErrorState.Success => "success"
  | ErrorState.OpenFailed => "open failed"
  | ErrorState.LockFailed => "lock failed"
  | ErrorState.IntegrityMismatch => "integrity mismatch"
  | ErrorState.MapFailed => "map failed"
  | ErrorState.IOFailed => "io failed"

/-- Embedded from the source (header lines 141-142): `getErrorMessage` is
inline and returns `mError.message()`, a value computed upon the call. -/
def FileBase.getErrorMessage (h : FileBase) : String :=
  ErrorState.message h.mError

/-- Embedded from the source (header lines 144-145): `getName` is inline and
returns the stored `mName` unchanged. -/
def FileBase.getName (h : FileBase) : String :=
  h.mName

/-- State-passing view of the const accessor `hasError`: the source declares
it `const` and its body only reads `mError`, so the receiver comes back
unchanged. -/
def FileBase.hasErrorOp (h : FileBase) : Bool × FileBase :=
  (FileBase.hasError h, h)

/-- State-passing view of the const accessor `getError`. -/
def FileBase.getErrorOp (h : FileBase) : ErrorState × FileBase :=
  (FileBase.getError h, h)

/-- State-passing view of the const accessor `getErrorMessage`. -/
def FileBase.getErrorMessageOp (h : FileBase) : String × FileBase :=
  (FileBase.getErrorMessage h, h)

/-- State-passing view of the const accessor `getName`. -/
def FileBase.getNameOp (h : FileBase) : String × FileBase :=
  (FileBase.getName h, h)

/-- Action performed by the destructor, used to record their order. -/
inductive DtorAction where
  | releaseLock
  | closeFd
  deriving DecidableEq, Repr

/-- Modelled from the spec: `FileBase::~FileBase` (header line 149, body not
in the repository).  If `mShouldUnlock` the destructor first releases the
advisory lock, then closes the descriptor if it is valid; it is total
(destruction never fails loudly) and ignores the error state.  Returns the
trace of actions in order and the final state (spec section 3, lifecycle). -/
def FileBase.destructor (h : FileBase) : List DtorAction × FileBase :=
  ((if h.mShouldUnlock then [DtorAction.releaseLock] else []) ++
    (if h.mFD.isSome then [DtorAction.closeFd] else []),
   { h with mShouldUnlock := false, mFD := none })

/-- State invariant of a handle (spec section 3): the descriptor is either
invalid or refers to a descriptor opened from `mName` with `mOpenFlags`, and
`mShouldUnlock = true` implies the descriptor is valid. -/
def FileBase.invariantHolds (h : FileBase) : Bool :=
  (match h.mFD with
   | none => true
   | some info => info.openedName == h.mName && info.openedFlags == h.mOpenFlags) &&
  (!h.mShouldUnlock || h.mFD.isSome)

/-- Modelled from the spec: the OS-level advisory lock state of one file, as
seen across handles and processes: how many read (shared) holders there are
and whether a write (exclusive) holder exists (spec section 4.2 and the
LockModeEnum comments at header lines 48-57). -/
structure OSLockState where
  readers : Nat
  writer : Bool
  deriving DecidableEq, Repr

/-- Modelled from the spec: whether a nonblocking acquisition attempt in the
given mode would be granted.  Read locks are shared (any number of read
holders, no writer); a write lock is exclusive (no read or write holder at
all), per the LockModeEnum comments (header lines 48-57). -/
def OSLockState.canAcquire (s : OSLockState) : LockModeEnum → Bool
  | LockModeEnum.kReadLock => !s.writer
  | LockModeEnum.kWriteLock => !s.writer && s.readers == 0

/-- Modelled from the spec: acquiring a lock at the OS level: grants and
records the holder when `canAcquire`, fails (would block) otherwise. -/
def OSLockState.acquire (s : OSLockState) (m : LockModeEnum) : Option OSLockState :=
  if OSLockState.canAcquire s m then
    match m with
    | LockModeEnum.kReadLock => some { s with readers := s.readers + 1 }
    | LockModeEnum.kWriteLock => some { s with writer := true }
  else
    none

/-- Modelled from the spec: releasing one holder of the given mode at the OS
level. -/
def OSLockState.release (s : OSLockState) (m : LockModeEnum) : OSLockState :=
  match m with
  | LockModeEnum.kReadLock => { s with readers := s.readers - 1 }
  | LockModeEnum.kWriteLock => { s with writer := false }

/-- Sample handle with a valid descriptor and no lock held, used as the
concrete input of the witnesses. -/
def sampleOpen : FileBase :=
  { mName := "cache.bin", mOpenFlags := 2, mFD := some ⟨"cache.bin", 2⟩,
    mError := ErrorState.Success, mShouldUnlock := false }

/-- Sample handle with a valid descriptor and a lock held. -/
def sampleLocked : FileBase :=
  { sampleOpen with mShouldUnlock := true }

/-- Sample handle opened read-only (O_RDONLY access mode). -/
def sampleReadOnly : FileBase :=
  { mName := "cache.bin", mOpenFlags := 0, mFD := some ⟨"cache.bin", 0⟩,
    mError := ErrorState.Success, mShouldUnlock := false }

/-! Helper lemmas about the retry loop. -/

/-- The retry loop makes at most `fuel` attempts. -/
theorem lockTry_attempts_le (v : Bool) (env : Nat → Bool) (idx fuel : Nat) :
    (lockTry v env idx fuel).2 ≤ fuel := by
  induction fuel generalizing idx with
  | zero => simp [lockTry]
  | succ n ih =>
    simp only [lockTry]
    split
    · exact Nat.succ_le_succ (Nat.zero_le n)
    · exact Nat.succ_le_succ (ih (idx + 1))

/-- The retry loop makes at least one attempt when the fuel is positive. -/
theorem lockTry_attempts_pos (v : Bool) (env : Nat → Bool) (idx fuel : Nat)
    (hf : 0 < fuel) : 0 < (lockTry v env idx fuel).2 := by
  cases fuel with
  | zero => exact absurd hf (by simp)
  | succ n =>
    simp only [lockTry]
    split
    · exact Nat.zero_lt_one
    · exact Nat.succ_pos _

/-- The retry loop succeeds exactly when some attempt within the fuel would be
granted by the OS on a valid descriptor. -/
theorem lockTry_succ_iff (v : Bool) (env : Nat → Bool) (idx fuel : Nat) :
    (lockTry v env idx fuel).1 = true ↔
      ∃ j, j < fuel ∧ (v && env (idx + j)) = true := by
  induction fuel generalizing idx with
  | zero => simp [lockTry]
  | succ n ih =>
    by_cases hc : (v && env idx) = true
    · constructor
      · intro _
        exact ⟨0, Nat.succ_pos n, by simpa using hc⟩
      · intro _
        simp [lockTry, hc]
    · have hred : (lockTry v env idx (n + 1)).1 = (lockTry v env (idx + 1) n).1 := by
        simp [lockTry, hc]
      rw [hred, ih (idx + 1)]
      constructor
      · rintro ⟨j, hj, hje⟩
        refine ⟨j + 1, Nat.succ_lt_succ hj, ?_⟩
        simpa [Nat.add_comm, Nat.add_assoc, Nat.add_left_comm] using hje
      · rintro ⟨j, hj, hje⟩
        cases j with
        | zero => exact absurd (by simpa using hje) hc
        | succ k =>
          refine ⟨k, Nat.lt_of_succ_lt_succ hj, ?_⟩
          simpa [Nat.add_comm, Nat.add_assoc, Nat.add_left_comm] using hje

/-- A successful retry loop implies the descriptor was valid. -/
theorem lockTry_true_fdValid (v : Bool) (env : Nat → Bool) (idx fuel : Nat)
    (hs : (lockTry v env idx fuel).1 = true) : v = true := by
  rcases (lockTry_succ_iff v env idx fuel).1 hs with ⟨j, _, hje⟩
  exact (Bool.and_eq_true_iff.1 hje).1

/-- C10: the default configuration of lock() is nonblocking = true,
maxRetry = kDefaultMaxRetryLock = 4 and retryInterval =
kDefaultRetryLockInterval = 200000 microseconds, so calling lock with only a
mode argument behaves exactly as lock(mode, true, 4, 200000). -/
theorem lock_default_configuration (h : FileBase) (pMode : LockModeEnum)
    (env : Nat → Bool) :
    kDefaultMaxRetryLock = 4 ∧
    kDefaultRetryLockInterval = 200000 ∧
    FileBase.lockDefault h pMode env = FileBase.lock h pMode true 4 200000 env :=
  ⟨rfl, rfl, rfl⟩

/-- C8: close() is idempotent: closing twice equals closing once, closing an
already-invalid descriptor is a no-op, and close records no error. -/
theorem close_idempotent (h : FileBase) :
    FileBase.close (FileBase.close h) = FileBase.close h ∧
    (h.mFD = none → FileBase.close h = h) ∧
    (FileBase.close h).mError = h.mError ∧
    (FileBase.close h).mFD = none := by
  refine ⟨rfl, ?_, rfl, rfl⟩
  intro hfd
  cases h
  simp_all [FileBase.close]

/-- C8 witness: closing an already-closed concrete handle is a no-op. -/
theorem close_idempotent_witness :
    FileBase.close (FileBase.close sampleOpen) = FileBase.close sampleOpen :=
  (close_idempotent (FileBase.close sampleOpen)).2.1 rfl

/-- C9: the query accessors hasError, getError, getErrorMessage and getName
leave the handle unchanged, returning exactly the stored error (or name)
without clearing it, and hasError reports exactly whether the stored error
differs from Success. -/
theorem accessors_pure (h : FileBase) :
    (FileBase.hasErrorOp h).2 = h ∧
    (FileBase.getErrorOp h).2 = h ∧
    (FileBase.getErrorMessageOp h).2 = h ∧
    (FileBase.getNameOp h).2 = h ∧
    (FileBase.getErrorOp (FileBase.hasErrorOp h).2).1 = h.mError ∧
    (FileBase.getErrorMessageOp (FileBase.getErrorOp h).2).1
      = ErrorState.message h.mError ∧
    (FileBase.getNameOp (FileBase.getErrorMessageOp h).2).1 = h.mName ∧
    (FileBase.hasError h = true ↔ h.mError ≠ ErrorState.Success) := by
  refine ⟨rfl, rfl, rfl, rfl, rfl, rfl, rfl, ?_⟩
  simp [FileBase.hasError]

/-- C5: reopen is exactly close followed by open: it closes the stale
descriptor, opens the stored path again with the original openFlags, and
returns open's result. -/
theorem reopen_close_then_open (osOK : Bool) (h : FileBase) :
    FileBase.reopen osOK h = FileBase.openFile osOK (FileBase.close h) ∧
    (FileBase.reopen osOK h).1.mName = h.mName ∧
    (FileBase.reopen osOK h).1.mOpenFlags = h.mOpenFlags ∧
    (FileBase.reopen osOK h).2 = (FileBase.openFile osOK (FileBase.close h)).2 ∧
    (osOK = true →
      (FileBase.reopen osOK h).1.mFD = some ⟨h.mName, h.mOpenFlags⟩ ∧
      (FileBase.reopen osOK h).2 = true) ∧
    (osOK = false →
      (FileBase.reopen osOK h).1.mFD = none ∧
      (FileBase.reopen osOK h).2 = false ∧
      (FileBase.reopen osOK h).1.mError = ErrorState.OpenFailed) := by
  cases osOK with
  | false => simp [FileBase.reopen, FileBase.openFile, FileBase.close]
  | true => simp [FileBase.reopen, FileBase.openFile, FileBase.close]

/-- C5 witness: a successful reopen of the concrete handle yields a fresh
descriptor opened from the stored name and flags, and reports success. -/
theorem reopen_close_then_open_witness :
    (FileBase.reopen true sampleOpen).1.mFD = some ⟨"cache.bin", 2⟩ ∧
    (FileBase.reopen true sampleOpen).2 = true :=
  (reopen_close_then_open true sampleOpen).2.2.2.2.1 rfl

/-- C7: unlock releases the lock only if held, is idempotent and a safe
no-op when no lock is held, never fails the process, and on an OS release
error only records LockFailed for diagnostics while still clearing the lock
state; it touches neither the descriptor nor the name. -/
theorem unlock_idempotent_best_effort (h : FileBase) (osOK osOK2 : Bool) :
    (h.mShouldUnlock = false → FileBase.unlock osOK h = h) ∧
    (FileBase.unlock osOK h).mShouldUnlock = false ∧
    FileBase.unlock osOK2 (FileBase.unlock osOK h) = FileBase.unlock osOK h ∧
    (h.mShouldUnlock = true → osOK = true →
      FileBase.unlock osOK h = { h with mShouldUnlock := false }) ∧
    (h.mShouldUnlock = true → osOK = false →
      (FileBase.unlock osOK h).mShouldUnlock = false ∧
      (FileBase.unlock osOK h).mError = ErrorState.LockFailed) ∧
    (FileBase.unlock osOK h).mFD = h.mFD ∧
    (FileBase.unlock osOK h).mName = h.mName := by
  cases hs : h.mShouldUnlock with
  | false => cases osOK with
    | false => simp [FileBase.unlock, hs]
    | true => simp [FileBase.unlock, hs]
  | true => cases osOK with
    | false => simp [FileBase.unlock, hs]
    | true => simp [FileBase.unlock, hs]

/-- C7 witness: unlocking the concrete locked handle with a failing OS
release still clears the lock state and records LockFailed. -/
theorem unlock_idempotent_best_effort_witness :
    (FileBase.unlock false sampleLocked).mShouldUnlock = false ∧
    (FileBase.unlock false sampleLocked).mError = ErrorState.LockFailed :=
  (unlock_idempotent_best_effort sampleLocked false false).2.2.2.2.1 rfl rfl

/-- C3: at destruction, if a lock is held the destructor first releases it
and then closes the descriptor if valid; the action trace is independent of
the error state (best-effort, never failing loudly), and the final state
holds no lock and no descriptor. -/
theorem destructor_release_then_close (h : FileBase) (e : ErrorState) :
    (h.mShouldUnlock = true → h.mFD.isSome = true →
      (FileBase.destructor h).1 = [DtorAction.releaseLock, DtorAction.closeFd]) ∧
    (h.mShouldUnlock = true → h.mFD.isSome = false →
      (FileBase.destructor h).1 = [DtorAction.releaseLock]) ∧
    (h.mShouldUnlock = false →
      (FileBase.destructor h).1
        = (if h.mFD.isSome then [DtorAction.closeFd] else [])) ∧
    (FileBase.destructor { h with mError := e }).1 = (FileBase.destructor h).1 ∧
    (FileBase.destructor h).2.mShouldUnlock = false ∧
    (FileBase.destructor h).2.mFD = none := by
  cases hs : h.mShouldUnlock with
  | false => simp [FileBase.destructor, hs]
  | true => cases hfd : h.mFD.isSome with
    | false => simp [FileBase.destructor, hs, hfd]
    | true => simp [FileBase.destructor, hs, hfd]

/-- C3 witness: destroying the concrete locked handle releases the lock
first and then closes the descriptor. -/
theorem destructor_release_then_close_witness :
    (FileBase.destructor sampleLocked).1
      = [DtorAction.releaseLock, DtorAction.closeFd] :=
  (destructor_release_then_close sampleLocked ErrorState.Success).1 rfl rfl

/-- C6: every failing createMap call returns a null result and records
MapFailed; in particular a writable map requested on a read-only-opened
handle always fails that way; a returned view always has exactly the
requested read-only mode (no silent degrade), and createMap leaves the
descriptor, name, flags and lock state of the handle unchanged. -/
theorem createMap_failure_semantics (h : FileBase) (pOffset : Int)
    (pLength : Nat) (pIsReadOnly osOK : Bool) :
    ((FileBase.createMap h pOffset pLength pIsReadOnly osOK).2 = none →
      (FileBase.createMap h pOffset pLength pIsReadOnly osOK).1.mError
        = ErrorState.MapFailed) ∧
    (readOnlyOpened h.mOpenFlags = true → pIsReadOnly = false →
      (FileBase.createMap h pOffset pLength pIsReadOnly osOK).2 = none ∧
      (FileBase.createMap h pOffset pLength pIsReadOnly osOK).1.mError
        = ErrorState.MapFailed) ∧
    (∀ v : FileMap,
      (FileBase.createMap h pOffset pLength pIsReadOnly osOK).2 = some v →
      v.readOnly = pIsReadOnly) ∧
    (FileBase.createMap h pOffset pLength pIsReadOnly osOK).1.mFD = h.mFD ∧
    (FileBase.createMap h pOffset pLength pIsReadOnly osOK).1.mName = h.mName ∧
    (FileBase.createMap h pOffset pLength pIsReadOnly osOK).1.mOpenFlags
      = h.mOpenFlags ∧
    (FileBase.createMap h pOffset pLength pIsReadOnly osOK).1.mShouldUnlock
      = h.mShouldUnlock := by
  simp only [FileBase.createMap]
  split
  · rename_i hc
    refine ⟨?_, ?_, ?_, rfl, rfl, rfl, rfl⟩
    · intro hv
      exact absurd hv (by simp)
    · intro hro hro2
      rw [hro, hro2] at hc
      simp at hc
    · intro v hv
      have hv2 := Option.some.inj hv
      rw [← hv2]
  · refine ⟨fun _ => rfl, fun _ _ => ⟨rfl, rfl⟩, ?_, rfl, rfl, rfl, rfl⟩
    intro v hv
    exact absurd hv (by simp)

/-- C6 witness: requesting a writable map on the concrete read-only-opened
handle returns null and records MapFailed. -/
theorem createMap_failure_semantics_witness :
    (FileBase.createMap sampleReadOnly 0 16 false true).2 = none ∧
    (FileBase.createMap sampleReadOnly 0 16 false true).1.mError
      = ErrorState.MapFailed :=
  (createMap_failure_semantics sampleReadOnly 0 16 false true).2.1 rfl rfl

/-- C1: a nonblocking lock call on a handle with a valid descriptor and no
lock held makes at least one and at most maxRetry + 1 acquisition attempts,
sleeps exactly retryInterval microseconds between consecutive attempts (so
(attempts - 1) * retryInterval in total), succeeds exactly when some attempt
within the budget is granted, on total failure records LockFailed with
lockHeld still false, and on success sets lockHeld to true. -/
theorem lock_nonblocking_retry (h : FileBase) (pMode : LockModeEnum)
    (pMaxRetry pRetryInterval : Nat) (env : Nat → Bool)
    (hfd : h.mFD.isSome = true) (hnl : h.mShouldUnlock = false) :
    (FileBase.lock h pMode true pMaxRetry pRetryInterval env).2.2.1
      ≤ pMaxRetry + 1 ∧
    1 ≤ (FileBase.lock h pMode true pMaxRetry pRetryInterval env).2.2.1 ∧
    (FileBase.lock h pMode true pMaxRetry pRetryInterval env).2.2.2
      = ((FileBase.lock h pMode true pMaxRetry pRetryInterval env).2.2.1 - 1)
          * pRetryInterval ∧
    ((FileBase.lock h pMode true pMaxRetry pRetryInterval env).2.1 = true ↔
      ∃ j, j ≤ pMaxRetry ∧ env j = true) ∧
    ((FileBase.lock h pMode true pMaxRetry pRetryInterval env).2.1 = false →
      (FileBase.lock h pMode true pMaxRetry pRetryInterval env).1.mError
        = ErrorState.LockFailed ∧
      (FileBase.lock h pMode true pMaxRetry pRetryInterval env).1.mShouldUnlock
        = false) ∧
    ((FileBase.lock h pMode true pMaxRetry pRetryInterval env).2.1 = true →
      (FileBase.lock h pMode true pMaxRetry pRetryInterval env).1.mShouldUnlock
        = true) := by
  have hle := lockTry_attempts_le true env 0 (pMaxRetry + 1)
  have hpos := lockTry_attempts_pos true env 0 (pMaxRetry + 1)
      (Nat.succ_pos pMaxRetry)
  have hiff := lockTry_succ_iff true env 0 (pMaxRetry + 1)
  simp only [Bool.true_and, Nat.zero_add, Nat.lt_succ_iff] at hiff
  cases hc : (lockTry true env 0 (pMaxRetry + 1)).1 with
  | false =>
    rw [hc] at hiff
    have hred : FileBase.lock h pMode true pMaxRetry pRetryInterval env
        = ({ h with mError := ErrorState.LockFailed }, false,
           (lockTry true env 0 (pMaxRetry + 1)).2,
           ((lockTry true env 0 (pMaxRetry + 1)).2 - 1) * pRetryInterval) := by
      simp [FileBase.lock, hfd, hc]
    rw [hred]
    exact ⟨hle, hpos, rfl, hiff, fun _ => ⟨rfl, hnl⟩,
      fun hx => Bool.noConfusion hx⟩
  | true =>
    rw [hc] at hiff
    have hred : FileBase.lock h pMode true pMaxRetry pRetryInterval env
        = ({ h with mShouldUnlock := true, mError := ErrorState.Success }, true,
           (lockTry true env 0 (pMaxRetry + 1)).2,
           ((lockTry true env 0 (pMaxRetry + 1)).2 - 1) * pRetryInterval) := by
      simp [FileBase.lock, hfd, hc]
    rw [hred]
    exact ⟨hle, hpos, rfl, hiff, fun hx => Bool.noConfusion hx, fun _ => rfl⟩

/-- C1 witness: a concrete nonblocking lock call whose five attempts all
would block fails, records LockFailed, leaves lockHeld false, and makes at
most five attempts. -/
theorem lock_nonblocking_retry_witness :
    (FileBase.lock sampleOpen LockModeEnum.kWriteLock true 4 200000
        (fun _ => false)).2.1 = false ∧
    (FileBase.lock sampleOpen LockModeEnum.kWriteLock true 4 200000
        (fun _ => false)).1.mError = ErrorState.LockFailed ∧
    (FileBase.lock sampleOpen LockModeEnum.kWriteLock true 4 200000
        (fun _ => false)).1.mShouldUnlock = false ∧
    (FileBase.lock sampleOpen LockModeEnum.kWriteLock true 4 200000
        (fun _ => false)).2.2.1 ≤ 5 := by
  have hmain := lock_nonblocking_retry sampleOpen LockModeEnum.kWriteLock
      4 200000 (fun _ => false) rfl rfl
  have hfail : (FileBase.lock sampleOpen LockModeEnum.kWriteLock true 4 200000
      (fun _ => false)).2.1 = false := by decide
  exact ⟨hfail, (hmain.2.2.2.2.1 hfail).1, (hmain.2.2.2.2.1 hfail).2, hmain.1⟩

/-- Field-level characterization of the handle invariant. -/
theorem invariantHolds_fields (h : FileBase) :
    FileBase.invariantHolds h = true ↔
      ((∀ info : FdInfo, h.mFD = some info →
          info.openedName = h.mName ∧ info.openedFlags = h.mOpenFlags) ∧
        (h.mShouldUnlock = true → h.mFD.isSome = true)) := by
  obtain ⟨n, fl, fd, e, su⟩ := h
  cases fd with
  | none => cases su <;> simp [FileBase.invariantHolds]
  | some info => cases su <;> simp [FileBase.invariantHolds, and_assoc]

/-- C2: read locks are shared: on a file with any number of read holders and
no writer, another read acquisition succeeds (so two handles can hold read
locks at once); a write acquisition fails while a writer or any reader
holds the file, succeeds exactly when no holder at all remains, and a
handle's nonblocking write lock request through lock() fails while a
conflicting holder exists. -/
theorem read_shared_write_exclusive :
    (∀ n : Nat,
      OSLockState.acquire ⟨n, false⟩ LockModeEnum.kReadLock
        = some ⟨n + 1, false⟩) ∧
    (∀ s : OSLockState, s.writer = true →
      OSLockState.acquire s LockModeEnum.kWriteLock = none) ∧
    (∀ s : OSLockState, 0 < s.readers →
      OSLockState.acquire s LockModeEnum.kWriteLock = none) ∧
    (∀ s : OSLockState,
      (OSLockState.acquire s LockModeEnum.kWriteLock).isSome = true ↔
        s.writer = false ∧ s.readers = 0) ∧
    (∀ (h : FileBase) (s : OSLockState) (k t : Nat), h.mFD.isSome = true →
      (s.writer = true ∨ 0 < s.readers) →
      (FileBase.lock h LockModeEnum.kWriteLock true k t
        (fun _ => OSLockState.canAcquire s LockModeEnum.kWriteLock)).2.1
          = false) := by
  have hwb : ∀ s : OSLockState, (s.writer = true ∨ 0 < s.readers) →
      OSLockState.canAcquire s LockModeEnum.kWriteLock = false := by
    rintro ⟨r, w⟩ hs
    cases w with
    | true => simp [OSLockState.canAcquire]
    | false =>
      rcases hs with hw | hr
      · exact absurd hw (by simp)
      · have hr2 : r ≠ 0 := Nat.pos_iff_ne_zero.1 hr
        simp [OSLockState.canAcquire, hr2]
  refine ⟨?_, ?_, ?_, ?_, ?_⟩
  · intro n
    simp [OSLockState.acquire, OSLockState.canAcquire]
  · intro s hw
    simp [OSLockState.acquire, OSLockState.canAcquire, hw]
  · intro s hr
    rw [OSLockState.acquire, hwb s (Or.inr hr)]
    simp
  · rintro ⟨r, w⟩
    cases w with
    | false =>
      cases r with
      | zero => simp [OSLockState.acquire, OSLockState.canAcquire]
      | succ m => simp [OSLockState.acquire, OSLockState.canAcquire]
    | true => simp [OSLockState.acquire, OSLockState.canAcquire]
  · intro h s k t hfd hs
    have henv := hwb s hs
    have hiff := lockTry_succ_iff h.mFD.isSome
        (fun _ => OSLockState.canAcquire s LockModeEnum.kWriteLock) 0 (k + 1)
    rw [FileBase.lock]
    simp only [if_pos rfl]
    have hfail : (lockTry h.mFD.isSome
        (fun _ => OSLockState.canAcquire s LockModeEnum.kWriteLock)
        0 (k + 1)).1 = false := by
      rw [← Bool.not_eq_true]
      rw [hiff]
      rintro ⟨j, _, hje⟩
      rw [henv] at hje
      simp at hje
    rw [hfail]
    simp

/-- C2 witness: with two concrete read holders the read lock was granted to
both, a concrete write acquisition fails against them and against a writer,
succeeds on the free file, and a concrete handle's nonblocking write lock
request fails while two readers hold the file. -/
theorem read_shared_write_exclusive_witness :
    OSLockState.acquire ⟨0, false⟩ LockModeEnum.kReadLock = some ⟨1, false⟩ ∧
    OSLockState.acquire ⟨1, false⟩ LockModeEnum.kReadLock = some ⟨2, false⟩ ∧
    OSLockState.acquire ⟨2, false⟩ LockModeEnum.kWriteLock = none ∧
    OSLockState.acquire ⟨0, true⟩ LockModeEnum.kWriteLock = none ∧
    (OSLockState.acquire ⟨0, false⟩ LockModeEnum.kWriteLock).isSome = true ∧
    (FileBase.lock sampleOpen LockModeEnum.kWriteLock true 4 200000
      (fun _ => OSLockState.canAcquire ⟨2, false⟩ LockModeEnum.kWriteLock)).2.1
        = false :=
  ⟨read_shared_write_exclusive.1 0,
   read_shared_write_exclusive.1 1,
   read_shared_write_exclusive.2.2.1 ⟨2, false⟩ (by decide),
   read_shared_write_exclusive.2.1 ⟨0, true⟩ rfl,
   (read_shared_write_exclusive.2.2.2.1 ⟨0, false⟩).2 ⟨rfl, rfl⟩,
   read_shared_write_exclusive.2.2.2.2 sampleOpen ⟨2, false⟩ 4 200000 rfl
     (Or.inr (by decide))⟩

/-- C4 counterexample: on a concrete handle that holds a lock and a valid
descriptor the invariant holds, but the public operation close leaves
lockHeld true with an invalid descriptor, so close does not preserve the
invariant and the claim as stated is false. -/
theorem close_breaks_invariant :
    FileBase.invariantHolds sampleLocked = true ∧
    FileBase.invariantHolds (FileBase.close sampleLocked) = false :=
  ⟨by decide, by decide⟩

/-- C4 amended: lock, unlock, seek, createMap, destruction, and every
successful open or reopen preserve the state invariant; open, close and
reopen also preserve it whenever no lock is held; the one exception the
counterexample forces is close (and a failing open or reopen) while
lockHeld is true, which leaves lockHeld true with an invalid descriptor. -/
theorem invariant_preservation_amended (h : FileBase)
    (hinv : FileBase.invariantHolds h = true) :
    (∀ (pMode : LockModeEnum) (pNb : Bool) (pMax pInt : Nat) (env : Nat → Bool),
      FileBase.invariantHolds (FileBase.lock h pMode pNb pMax pInt env).1
        = true) ∧
    (∀ osOK : Bool, FileBase.invariantHolds (FileBase.unlock osOK h) = true) ∧
    (∀ r : Option Int, FileBase.invariantHolds (FileBase.seek r h).1 = true) ∧
    (∀ (o : Int) (l : Nat) (ro b : Bool),
      FileBase.invariantHolds (FileBase.createMap h o l ro b).1 = true) ∧
    FileBase.invariantHolds (FileBase.destructor h).2 = true ∧
    FileBase.invariantHolds (FileBase.openFile true h).1 = true ∧
    FileBase.invariantHolds (FileBase.reopen true h).1 = true ∧
    (h.mShouldUnlock = false →
      (∀ osOK : Bool,
        FileBase.invariantHolds (FileBase.openFile osOK h).1 = true) ∧
      FileBase.invariantHolds (FileBase.close h) = true ∧
      (∀ osOK : Bool,
        FileBase.invariantHolds (FileBase.reopen osOK h).1 = true)) := by
  have hA := ((invariantHolds_fields h).1 hinv).1
  have hB := ((invariantHolds_fields h).1 hinv).2
  refine ⟨?_, ?_, ?_, ?_, ?_, ?_, ?_, ?_⟩
  · intro pMode pNb pMax pInt env
    rw [invariantHolds_fields]
    cases pNb with
    | true =>
      cases hc : (lockTry h.mFD.isSome env 0 (pMax + 1)).1 with
      | false =>
        have hred : (FileBase.lock h pMode true pMax pInt env).1
            = { h with mError := ErrorState.LockFailed } := by
          simp [FileBase.lock, hc]
        rw [hred]
        exact ⟨hA, hB⟩
      | true =>
        have hred : (FileBase.lock h pMode true pMax pInt env).1
            = { h with mShouldUnlock := true, mError := ErrorState.Success } := by
          simp [FileBase.lock, hc]
        rw [hred]
        exact ⟨hA, fun _ => lockTry_true_fdValid _ env 0 (pMax + 1) hc⟩
    | false =>
      cases hc : (h.mFD.isSome && env 0) with
      | false =>
        have hred : (FileBase.lock h pMode false pMax pInt env).1
            = { h with mError := ErrorState.LockFailed } := by
          simp [FileBase.lock, hc]
        rw [hred]
        exact ⟨hA, hB⟩
      | true =>
        have hred : (FileBase.lock h pMode false pMax pInt env).1
            = { h with mShouldUnlock := true, mError := ErrorState.Success } := by
          simp [FileBase.lock, hc]
        rw [hred]
        exact ⟨hA, fun _ => (Bool.and_eq_true_iff.1 hc).1⟩
  · intro osOK
    rw [invariantHolds_fields]
    cases hs : h.mShouldUnlock with
    | false =>
      have hred : FileBase.unlock osOK h = h := by simp [FileBase.unlock, hs]
      rw [hred]
      exact ⟨hA, hB⟩
    | true =>
      cases osOK with
      | true =>
        have hred : FileBase.unlock true h = { h with mShouldUnlock := false } := by
          simp [FileBase.unlock, hs]
        rw [hred]
        exact ⟨hA, fun hx => Bool.noConfusion hx⟩
      | false =>
        have hred : FileBase.unlock false h
            = { h with mShouldUnlock := false, mError := ErrorState.LockFailed } := by
          simp [FileBase.unlock, hs]
        rw [hred]
        exact ⟨hA, fun hx => Bool.noConfusion hx⟩
  · intro r
    cases r with
    | none =>
      rw [invariantHolds_fields]
      exact ⟨hA, hB⟩
    | some off =>
      rw [invariantHolds_fields]
      exact ⟨hA, hB⟩
  · intro o l ro b
    rw [invariantHolds_fields]
    rw [FileBase.createMap]
    split
    · exact ⟨hA, hB⟩
    · exact ⟨hA, hB⟩
  · rw [invariantHolds_fields]
    exact ⟨fun info hinfo => Option.noConfusion hinfo,
      fun hx => Bool.noConfusion hx⟩
  · rw [invariantHolds_fields]
    refine ⟨?_, fun _ => rfl⟩
    intro info hinfo
    cases Option.some.inj hinfo
    exact ⟨rfl, rfl⟩
  · rw [invariantHolds_fields]
    refine ⟨?_, fun _ => rfl⟩
    intro info hinfo
    cases Option.some.inj hinfo
    exact ⟨rfl, rfl⟩
  · intro hsu
    refine ⟨?_, ?_, ?_⟩
    · intro osOK
      rw [invariantHolds_fields]
      cases osOK with
      | true =>
        refine ⟨?_, fun _ => rfl⟩
        intro info hinfo
        cases Option.some.inj hinfo
        exact ⟨rfl, rfl⟩
      | false =>
        refine ⟨fun info hinfo => Option.noConfusion hinfo, ?_⟩
        intro hx
        have hx2 : h.mShouldUnlock = true := hx
        rw [hsu] at hx2
        exact Bool.noConfusion hx2
    · rw [invariantHolds_fields]
      refine ⟨fun info hinfo => Option.noConfusion hinfo, ?_⟩
      intro hx
      have hx2 : h.mShouldUnlock = true := hx
      rw [hsu] at hx2
      exact Bool.noConfusion hx2
    · intro osOK
      rw [invariantHolds_fields]
      cases osOK with
      | true =>
        refine ⟨?_, fun _ => rfl⟩
        intro info hinfo
        cases Option.some.inj hinfo
        exact ⟨rfl, rfl⟩
      | false =>
        refine ⟨fun info hinfo => Option.noConfusion hinfo, ?_⟩
        intro hx
        have hx2 : h.mShouldUnlock = true := hx
        rw [hsu] at hx2
        exact Bool.noConfusion hx2

/-- C4 witness: the amended preservation theorem applied to concrete
handles: unlock and destruction on a locked handle, and close on an
unlocked handle, each keep the invariant. -/
theorem invariant_preservation_amended_witness :
    FileBase.invariantHolds (FileBase.unlock true sampleLocked) = true ∧
    FileBase.invariantHolds (FileBase.destructor sampleLocked).2 = true ∧
    FileBase.invariantHolds (FileBase.close sampleOpen) = true := by
  have hm := invariant_preservation_amended sampleLocked (by decide)
  have hm2 := invariant_preservation_amended sampleOpen (by decide)
  exact ⟨hm.2.1 true, hm.2.2.2.2.1, (hm2.2.2.2.2.2.2.2 rfl).2.1⟩

end bcc
